import Mathlib

/-!
Shallow embedding of the NEMO-VM master-CSV merge pipeline
(`nemo_billing_to_drive.py`) and of the usage-event helpers (`utils.py`).

Records are flat mappings with a `start` timestamp field and an `id`
natural-key field; the remaining fields are kept opaque as key/value text
pairs.  Timestamp strings are modelled abstractly by their parse result:
the external parsers (`pandas.to_datetime(errors='coerce', utc=True)` and
`datetime.fromisoformat`) are external collaborators, so a raw `start`
value is either a string that parses to a canonical timezone-naive
timestamp, or a malformed string.
-/

/-- A timezone-naive calendar timestamp, compared lexicographically
(year, month, day, minute-of-day). -/
structure DateTime where
  year : Int
  month : Nat
  day : Nat
  minute : Nat
deriving DecidableEq, Repr

/-- Strict chronological order on naive timestamps. -/
def DateTime.lt (a b : DateTime) : Bool :=
  decide (a.year < b.year) ||
    (a.year == b.year &&
      (a.month < b.month ||
        (a.month == b.month &&
          (a.day < b.day || (a.day == b.day && a.minute < b.minute)))))

/-- Non-strict chronological order on naive timestamps. -/
def DateTime.le (a b : DateTime) : Bool :=
  DateTime.lt a b || a == b

/-- A raw `start` field value as it arrives from the API / CSV: a string
that either parses (after timezone normalization) to a naive timestamp,
or is malformed. -/
inductive StartVal where
  /-- a timestamp string that the external parser accepts, yielding `t` -/
  | valid (t : DateTime)
  /-- a malformed timestamp string -/
  | invalid (s : String)
deriving DecidableEq, Repr

/-- A raw billing/usage record: `start` (absent when the key is missing),
the `id` natural key (absent when missing), and the remaining fields as
opaque key/value text pairs. -/
structure Row where
  start : Option StartVal
  id : Option Int
  rest : List (String × String)
deriving DecidableEq, Repr

/-- A record after the `start` column has been run through
`pd.to_datetime(errors='coerce', utc=True)` and made timezone-naive:
`start = none` is the NaT sentinel. -/
structure NRow where
  start : Option DateTime
  id : Option Int
  rest : List (String × String)
deriving DecidableEq, Repr

/-- `pd.to_datetime(errors='coerce', utc=True)` followed by the
naive-conversion step (lines 261-266): a parsable string becomes its
naive timestamp, a malformed or missing value becomes NaT (`none`).
Total: it never raises. -/
def normalizeStart : Option StartVal → Option DateTime
  | some (.valid t) => some t
  | some (.invalid _) => none
  | none => none

/-- Normalization of a whole record's `start` field. -/
def normalizeRow (r : Row) : NRow :=
  ⟨normalizeStart r.start, r.id, r.rest⟩

/-- Writing a normalized table to CSV and reading it back for the next
run (the persistence collaborator round-trip): a parsed timestamp is
serialized to a string that parses back to itself, NaT round-trips to a
missing value. -/
def denormalizeRow (r : NRow) : Row :=
  ⟨r.start.map .valid, r.id, r.rest⟩

/-- The keep-mask of lines 270-271: keep a record when its normalized
`start` is NaT, or is `< cutoff_date`. -/
def keepMask (cutoff : DateTime) (r : NRow) : Bool :=
  match r.start with
  | none => true
  | some t => DateTime.lt t cutoff

/-- A record is in replace scope when its `start` parsed and is
`>= cutoff_date` (the negation of the keep-mask). -/
def inReplaceScope (cutoff : DateTime) (r : NRow) : Bool :=
  !keepMask cutoff r

/-- `DataFrame.drop_duplicates()` (keep='first', all columns): keep the
first occurrence of each value, drop later exact duplicates. -/
def dropDupsFrom [DecidableEq α] (seen : List α) : List α → List α
  | [] => []
  | r :: rs =>
    if r ∈ seen then dropDupsFrom seen rs
    else r :: dropDupsFrom (r :: seen) rs

/-- `combined_df.drop_duplicates()` on line 289 / 395. -/
def dropDuplicates [DecidableEq α] (l : List α) : List α :=
  dropDupsFrom [] l

/-- The concatenated table of line 288: existing records (normalized,
filtered by the keep-mask) followed by the freshly fetched records
(normalized). -/
def mergeInput (existing fresh : List Row) (cutoff : DateTime) : List NRow :=
  (existing.map normalizeRow).filter (keepMask cutoff) ++ fresh.map normalizeRow

/-- The merge of lines 257-289 (identical in lines 363-395): normalize
both tables' `start` columns, drop existing records in replace scope,
append the fresh batch, and remove exact-duplicate rows. -/
def mergeMaster (existing fresh : List Row) (cutoff : DateTime) : List NRow :=
  dropDuplicates (mergeInput existing fresh cutoff)

/-- Outcome of `fetch_billing_data` (lines 93-117): a transport-level
`RequestException` is caught and reported, and the function returns
`None`; otherwise it returns the parsed record list. -/
def fetch_billing_data : Except String (List Row) → Option (List Row)
  | .error _ => none
  | .ok data => some data

/-- Outcome of the attempt to download and read the existing master CSV
(lines 239-255): the file may be absent, present but unreadable
(`pd.read_csv` raises), or successfully parsed into records. -/
inductive ReadResult where
  | notFound
  | readError (msg : String)
  | ok (rows : List Row)
deriving DecidableEq, Repr

/-- The table handed to `save_to_csv`: in the not-found and read-error
branches (lines 295, 299) it is `pd.DataFrame(latest_data)` — the raw
fresh batch, with no `start` normalization — while in the merge branch
it is the combined, deduplicated, normalized table. -/
inductive WrittenTable where
  | raw (rows : List Row)
  | merged (rows : List NRow)
deriving DecidableEq, Repr

/-- What `update_master_csv_for_year` does after the fetch: either an
early `return` before any write or upload (with the message it prints),
or a write+upload of a table (with the warnings printed on the way). -/
inductive UpdateResult where
  | aborted (msg : String)
  | written (table : WrittenTable) (warnings : List String)
deriving DecidableEq, Repr

/-- Control flow of `update_master_csv_for_year` (lines 222-312) after
the date range is fixed, as a function of the fetch result, the read of
the existing master CSV, and the 40-day cutoff (`update_master_master_csv`,
lines 332-419, is line-for-line the same).  `if not latest_data` (line 224)
catches both a failed fetch (`None`) and an empty batch and returns
before anything is written. -/
def update_master_csv_for_year (fetched : Option (List Row))
    (readRes : ReadResult) (cutoff : DateTime) : UpdateResult :=
  match fetched with
  | none => .aborted "No new data found"
  | some [] => .aborted "No new data found"
  | some latest =>
    match readRes with
    | .notFound => .written (.raw latest) []
    | .readError _ =>
        .written (.raw latest) ["Error reading existing CSV, creating new one"]
    | .ok existingRows => .written (.merged (mergeMaster existingRows latest cutoff)) []

/-- The persisted master file after a run: an early return leaves the
old file as it was; a completed run overwrites it with the new table
(read-then-write-whole-file semantics). -/
def persistedAfter (old : Option WrittenTable) : UpdateResult → Option WrittenTable
  | .aborted _ => old
  | .written t _ => some t

/-! ### Usage-event helpers from `utils.py` -/

/-- `x.get('id', 0)` in `limit_to_recent_events` (line 169). -/
def idOrZero (e : Row) : Int :=
  e.id.getD 0

/-- The descending-id comparison used by
`sorted(data, key=lambda x: x.get('id', 0), reverse=True)` (line 169):
`a` may come before `b` when `a`'s id is at least `b`'s. -/
def moreRecent (a b : Row) : Bool :=
  idOrZero b ≤ idOrZero a

/-- `limit_to_recent_events` (utils.py lines 162-173): if the list is
within the limit return it unchanged, else sort by id descending
(Python's stable `sorted(..., reverse=True)`) and take the first
`maxEvents`. -/
def limit_to_recent_events (data : List Row) (maxEvents : Nat := 2000) : List Row :=
  if data.length ≤ maxEvents then data
  else (data.mergeSort moreRecent).take maxEvents

/-- The per-event test of `filter_usage_events_by_date` (utils.py lines
179-190): `event['start']` raises `KeyError` when the key is missing and
`datetime.fromisoformat` raises `ValueError` on a malformed string; both
are caught and the event is skipped.  A parsed event is kept iff its
year and month match the targets. -/
def eventMatchesDate (targetYear : Int) (targetMonth : Nat) (e : Row) : Bool :=
  match e.start with
  | some (.valid t) => t.year == targetYear && t.month == targetMonth
  | some (.invalid _) => false
  | none => false

/-- `filter_usage_events_by_date` (utils.py lines 175-193). -/
def filter_usage_events_by_date (data : List Row) (targetYear : Int)
    (targetMonth : Nat) : List Row :=
  data.filter (eventMatchesDate targetYear targetMonth)

/-! ### Basic lemmas about the embedding -/

theorem mem_dropDupsFrom [DecidableEq α] (seen l : List α) (x : α) :
    x ∈ dropDupsFrom seen l ↔ x ∈ l ∧ x ∉ seen := by
  induction l generalizing seen with
  | nil => simp [dropDupsFrom]
  | cons r rs ih =>
    by_cases hr : r ∈ seen
    · simp only [dropDupsFrom, if_pos hr, ih, List.mem_cons]
      constructor
      · rintro ⟨h1, h2⟩; exact ⟨Or.inr h1, h2⟩
      · rintro ⟨h1 | h1, h2⟩
        · exact absurd (h1 ▸ hr) h2
        · exact ⟨h1, h2⟩
    · simp only [dropDupsFrom, if_neg hr, List.mem_cons, ih]
      constructor
      · rintro (rfl | ⟨h1, h2⟩)
        · exact ⟨Or.inl rfl, hr⟩
        · exact ⟨Or.inr h1, fun hs => h2 (Or.inr hs)⟩
      · rintro ⟨h1 | h1, h2⟩
        · exact Or.inl h1
        · by_cases hx : x = r
          · exact Or.inl hx
          · exact Or.inr ⟨h1, fun hs => hs.elim hx h2⟩

theorem nodup_dropDupsFrom [DecidableEq α] (seen l : List α) :
    (dropDupsFrom seen l).Nodup := by
  induction l generalizing seen with
  | nil => simp [dropDupsFrom]
  | cons r rs ih =>
    by_cases hr : r ∈ seen
    · simpa [dropDupsFrom, hr] using ih seen
    · simp only [dropDupsFrom, if_neg hr, List.nodup_cons]
      refine ⟨?_, ih (r :: seen)⟩
      intro hmem
      exact ((mem_dropDupsFrom _ _ _).1 hmem).2 (List.mem_cons_self r seen)

theorem dropDupsFrom_sublist [DecidableEq α] (seen l : List α) :
    List.Sublist (dropDupsFrom seen l) l := by
  induction l generalizing seen with
  | nil => simp [dropDupsFrom]
  | cons r rs ih =>
    by_cases hr : r ∈ seen
    · simp only [dropDupsFrom, if_pos hr]
      exact (ih seen).trans (List.sublist_cons_self r rs)
    · simp only [dropDupsFrom, if_neg hr]
      exact List.Sublist.cons₂ r (ih (r :: seen))

theorem mem_dropDuplicates [DecidableEq α] {l : List α} {x : α} :
    x ∈ dropDuplicates l ↔ x ∈ l := by
  simp [dropDuplicates, mem_dropDupsFrom]

theorem nodup_dropDuplicates [DecidableEq α] (l : List α) :
    (dropDuplicates l).Nodup :=
  nodup_dropDupsFrom [] l

theorem dropDuplicates_sublist [DecidableEq α] (l : List α) :
    List.Sublist (dropDuplicates l) l :=
  dropDupsFrom_sublist [] l

theorem count_dropDuplicates_of_mem [DecidableEq α] {l : List α} {x : α}
    (h : x ∈ l) : (dropDuplicates l).count x = 1 :=
  List.count_eq_one_of_mem (nodup_dropDuplicates l)
    (mem_dropDuplicates.2 h)

theorem normalizeRow_denormalizeRow (r : NRow) :
    normalizeRow (denormalizeRow r) = r := by
  obtain ⟨s, i, rest⟩ := r
  cases s <;> rfl

theorem mem_mergeMaster {existing fresh : List Row} {cutoff : DateTime}
    {r : NRow} :
    r ∈ mergeMaster existing fresh cutoff ↔
      r ∈ mergeInput existing fresh cutoff := by
  simp [mergeMaster, mem_dropDuplicates]

theorem mem_mergeInput {existing fresh : List Row} {cutoff : DateTime}
    {r : NRow} :
    r ∈ mergeInput existing fresh cutoff ↔
      ((r ∈ existing.map normalizeRow ∧ keepMask cutoff r = true) ∨
        r ∈ fresh.map normalizeRow) := by
  simp [mergeInput, List.mem_filter, List.mem_append]

/-! ### Concrete sample records used by witnesses and counterexamples -/

/-- A merge window boundary: 2024-03-01. -/
def cutoffMar2024 : DateTime := ⟨2024, 3, 1, 0⟩

/-- A merge window boundary: 2024-01-01. -/
def cutoffJan2024 : DateTime := ⟨2024, 1, 1, 0⟩

/-- An existing record dated 2024-01-05 (out of scope for `cutoffMar2024`). -/
def rowJan : Row := ⟨some (.valid ⟨2024, 1, 5, 0⟩), some 1, []⟩

/-- A second record dated 2024-01-06, same natural key as `rowJan`. -/
def rowJanB : Row := ⟨some (.valid ⟨2024, 1, 6, 0⟩), some 1, []⟩

/-- A freshly fetched record dated 2024-03-10. -/
def rowMar : Row := ⟨some (.valid ⟨2024, 3, 10, 0⟩), some 2, []⟩

/-- A record whose `start` string is malformed. -/
def rowBad : Row := ⟨some (.invalid "not-a-date"), some 3, []⟩

/-- An existing record dated 2024-06-01 (year 2024). -/
def rowYr2024 : Row := ⟨some (.valid ⟨2024, 6, 1, 0⟩), some 10, []⟩

/-- A freshly fetched record dated 2025-02-01 (year 2025). -/
def rowYr2025 : Row := ⟨some (.valid ⟨2025, 2, 1, 0⟩), some 11, []⟩

/-- A fresh record dated 2024-03-05, inside the `cutoffMar2024` window. -/
def rowMarEarly : Row := ⟨some (.valid ⟨2024, 3, 5, 0⟩), some 20, []⟩

/-! ### Claim theorems -/

/-- C1: Merge output contract — for every `existing_rows` and non-empty
`fresh_rows`, the merge result is the keep-filtered existing rows
concatenated with the fresh rows with exact-duplicate rows removed
(an order-preserving, duplicate-free subsequence of that concatenation
with the same membership), and consequently every row of the result is
either an out-of-replace-scope existing row or a fresh row. -/
theorem C1_merge_output_contract (existing fresh : List Row) (cutoff : DateTime)
    (hf : fresh ≠ []) :
    List.Sublist (mergeMaster existing fresh cutoff) (mergeInput existing fresh cutoff) ∧
    (mergeMaster existing fresh cutoff).Nodup ∧
    (∀ r : NRow, r ∈ mergeMaster existing fresh cutoff ↔
      r ∈ mergeInput existing fresh cutoff) ∧
    (∀ r ∈ mergeMaster existing fresh cutoff,
      (r ∈ existing.map normalizeRow ∧ inReplaceScope cutoff r = false) ∨
        r ∈ fresh.map normalizeRow) := by
  refine ⟨dropDuplicates_sublist _, nodup_dropDuplicates _,
    fun r => mem_mergeMaster, fun r hr => ?_⟩
  rcases mem_mergeInput.1 (mem_mergeMaster.1 hr) with ⟨hmem, hkeep⟩ | hfresh
  · exact Or.inl ⟨hmem, by simp [inReplaceScope, hkeep]⟩
  · exact Or.inr hfresh

/-- C1 witness: the contract instantiated at a concrete merge of one
out-of-scope existing row with one fresh row. -/
theorem C1_witness :
    ([rowMar] ≠ ([] : List Row)) ∧
    (List.Sublist (mergeMaster [rowJan] [rowMar] cutoffMar2024)
        (mergeInput [rowJan] [rowMar] cutoffMar2024) ∧
      (mergeMaster [rowJan] [rowMar] cutoffMar2024).Nodup ∧
      (∀ r : NRow, r ∈ mergeMaster [rowJan] [rowMar] cutoffMar2024 ↔
        r ∈ mergeInput [rowJan] [rowMar] cutoffMar2024) ∧
      (∀ r ∈ mergeMaster [rowJan] [rowMar] cutoffMar2024,
        (r ∈ [rowJan].map normalizeRow ∧ inReplaceScope cutoffMar2024 r = false) ∨
          r ∈ [rowMar].map normalizeRow)) :=
  ⟨by decide, C1_merge_output_contract [rowJan] [rowMar] cutoffMar2024 (by decide)⟩

/-- C2 counterexample: the merge applies no year/partition scoping.  With
window start 2024-01-01 (and target partition year 2025), the existing
row dated 2024-06-01 — parsed year 2024, different from the partition —
has timestamp `>= window_start` and is nevertheless dropped from the
merge result, contradicting the claim that rows of another year are
always retained. -/
theorem C2_counterexample :
    normalizeStart rowYr2024.start = some ⟨2024, 6, 1, 0⟩ ∧
    DateTime.le cutoffJan2024 ⟨2024, 6, 1, 0⟩ = true ∧
    (2024 : Int) ≠ 2025 ∧
    normalizeRow rowYr2024 ∉ mergeMaster [rowYr2024] [rowYr2025] cutoffJan2024 := by
  decide

/-- C2 amended: the merge never applies a year/partition filter — an
existing row in replace scope (parsed timestamp `>= window_start`),
whatever its year, survives into the result exactly when an identical
row occurs in the fresh batch. -/
theorem C2_amended_no_partition_scoping (existing fresh : List Row)
    (cutoff : DateTime) (e : Row) (he : e ∈ existing)
    (hscope : inReplaceScope cutoff (normalizeRow e) = true) :
    normalizeRow e ∈ mergeMaster existing fresh cutoff ↔
      normalizeRow e ∈ fresh.map normalizeRow := by
  constructor
  · intro hmem
    rcases mem_mergeInput.1 (mem_mergeMaster.1 hmem) with ⟨_, hkeep⟩ | hfresh
    · simp [inReplaceScope, hkeep] at hscope
    · exact hfresh
  · intro hfresh
    exact mem_mergeMaster.2 (mem_mergeInput.2 (Or.inr hfresh))

/-- C2 witness: the amended statement at the concrete in-scope row. -/
theorem C2_witness :
    rowYr2024 ∈ [rowYr2024] ∧
    inReplaceScope cutoffJan2024 (normalizeRow rowYr2024) = true ∧
    (normalizeRow rowYr2024 ∈ mergeMaster [rowYr2024] [rowYr2025] cutoffJan2024 ↔
      normalizeRow rowYr2024 ∈ [rowYr2025].map normalizeRow) :=
  ⟨by decide, by decide,
    C2_amended_no_partition_scoping [rowYr2024] [rowYr2025] cutoffJan2024 rowYr2024
      (by decide) (by decide)⟩

/-- C3: empty-fresh-batch atomicity — for every persisted master table
and every read outcome, a run whose fetched batch is empty stops with
the explicit early-return report and the persisted table is left exactly
as it was. -/
theorem C3_empty_batch_atomic (old : Option WrittenTable) (readRes : ReadResult)
    (cutoff : DateTime) :
    update_master_csv_for_year (some []) readRes cutoff =
      .aborted "No new data found" ∧
    persistedAfter old (update_master_csv_for_year (some []) readRes cutoff) = old :=
  ⟨rfl, rfl⟩

/-- C4 counterexample: rows with unparsable timestamps are NOT
count-preserved exactly — two field-for-field identical existing rows
with a malformed `start` are collapsed to a single copy by the final
`drop_duplicates()`. -/
theorem C4_counterexample :
    normalizeStart rowBad.start = none ∧
    List.count rowBad [rowBad, rowBad] = 2 ∧
    (mergeMaster [rowBad, rowBad] [rowMar] cutoffMar2024).count
      (normalizeRow rowBad) = 1 := by
  decide

/-- C4 amended: timestamp normalization of a malformed or missing
`start` never raises and yields the NaT sentinel, and every existing row
whose timestamp fails to parse is present in the merge result —
never dropped, regardless of window — though exact-duplicate copies are
collapsed to a single surviving row. -/
theorem C4_amended_invalid_rows_retained (existing fresh : List Row)
    (cutoff : DateTime) (e : Row) (he : e ∈ existing)
    (hbad : normalizeStart e.start = none) :
    (∀ s, normalizeStart (some (.invalid s)) = none) ∧
    normalizeStart none = none ∧
    (normalizeRow e).start = none ∧
    normalizeRow e ∈ mergeMaster existing fresh cutoff ∧
    (mergeMaster existing fresh cutoff).count (normalizeRow e) = 1 := by
  have hkeep : keepMask cutoff (normalizeRow e) = true := by
    simp [keepMask, normalizeRow, hbad]
  have hmem : normalizeRow e ∈ mergeInput existing fresh cutoff :=
    mem_mergeInput.2 (Or.inl ⟨List.mem_map_of_mem _ he, hkeep⟩)
  exact ⟨fun s => rfl, rfl, hbad, mem_mergeMaster.2 hmem,
    count_dropDuplicates_of_mem hmem⟩

/-- C4 witness: the amended statement at a concrete malformed-timestamp
row. -/
theorem C4_witness :
    rowBad ∈ [rowBad, rowJan] ∧
    normalizeStart rowBad.start = none ∧
    ((∀ s, normalizeStart (some (.invalid s)) = none) ∧
      normalizeStart none = none ∧
      (normalizeRow rowBad).start = none ∧
      normalizeRow rowBad ∈ mergeMaster [rowBad, rowJan] [rowMar] cutoffMar2024 ∧
      (mergeMaster [rowBad, rowJan] [rowMar] cutoffMar2024).count
        (normalizeRow rowBad) = 1) :=
  ⟨by decide, by decide,
    C4_amended_invalid_rows_retained [rowBad, rowJan] [rowMar] cutoffMar2024 rowBad
      (by decide) (by decide)⟩

/-- C5: deduplication policy — the merge drops a row only when another
row of the concatenated set agrees with it on every field: each row of
the concatenated set has exactly one surviving copy in the result, and
two rows sharing the natural key but differing in some field are both
kept. -/
theorem C5_dedup_full_row_equality (existing fresh : List Row) (cutoff : DateTime) :
    (∀ r ∈ mergeInput existing fresh cutoff,
      (mergeMaster existing fresh cutoff).count r = 1) ∧
    (∀ r1 ∈ mergeInput existing fresh cutoff,
      ∀ r2 ∈ mergeInput existing fresh cutoff,
        r1.id = r2.id → r1 ≠ r2 →
          r1 ∈ mergeMaster existing fresh cutoff ∧
          r2 ∈ mergeMaster existing fresh cutoff) := by
  refine ⟨fun r hr => count_dropDuplicates_of_mem hr, ?_⟩
  intro r1 h1 r2 h2 _ _
  exact ⟨mem_mergeMaster.2 h1, mem_mergeMaster.2 h2⟩

/-- C5 witness: a duplicated out-of-scope row survives exactly once and
two key-sharing, field-distinct rows both survive. -/
theorem C5_witness :
    normalizeRow rowJan ∈ mergeInput [rowJan, rowJan, rowJanB] [rowMar] cutoffMar2024 ∧
    (mergeMaster [rowJan, rowJan, rowJanB] [rowMar] cutoffMar2024).count
      (normalizeRow rowJan) = 1 ∧
    (normalizeRow rowJan).id = (normalizeRow rowJanB).id ∧
    normalizeRow rowJan ≠ normalizeRow rowJanB ∧
    (normalizeRow rowJan ∈ mergeMaster [rowJan, rowJan, rowJanB] [rowMar] cutoffMar2024 ∧
      normalizeRow rowJanB ∈ mergeMaster [rowJan, rowJan, rowJanB] [rowMar] cutoffMar2024) :=
  ⟨by decide,
    (C5_dedup_full_row_equality [rowJan, rowJan, rowJanB] [rowMar] cutoffMar2024).1
      (normalizeRow rowJan) (by decide),
    by decide, by decide,
    (C5_dedup_full_row_equality [rowJan, rowJan, rowJanB] [rowMar] cutoffMar2024).2
      (normalizeRow rowJan) (by decide) (normalizeRow rowJanB) (by decide)
      (by decide) (by decide)⟩

/-- C6 counterexample: re-merging the same fresh batch into the
persisted result of a first merge does not reproduce the first result
as an ordered sequence — a fresh row that passes the keep-mask (here a
NaT row) moves ahead of the in-window fresh rows on the second run. -/
theorem C6_counterexample :
    mergeMaster ((mergeMaster [] [rowMarEarly, rowBad] cutoffMar2024).map denormalizeRow)
        [rowMarEarly, rowBad] cutoffMar2024 ≠
      mergeMaster [] [rowMarEarly, rowBad] cutoffMar2024 := by
  decide

/-- C6 amended: the merge is idempotent up to row order — re-merging the
same non-empty fresh batch over the same window into the persisted
first-merge result yields a permutation of the first result (same rows,
same count: no growth and no content change). -/
theorem C6_amended_idempotent_up_to_order (existing fresh : List Row)
    (cutoff : DateTime) (hf : fresh ≠ []) :
    (mergeMaster ((mergeMaster existing fresh cutoff).map denormalizeRow)
        fresh cutoff).Perm
      (mergeMaster existing fresh cutoff) := by
  have hmapnorm :
      ((mergeMaster existing fresh cutoff).map denormalizeRow).map normalizeRow =
        mergeMaster existing fresh cutoff := by
    rw [List.map_map]
    have hcomp : normalizeRow ∘ denormalizeRow = id := funext normalizeRow_denormalizeRow
    rw [hcomp, List.map_id]
  have hn1 : (mergeMaster ((mergeMaster existing fresh cutoff).map denormalizeRow)
      fresh cutoff).Nodup := nodup_dropDuplicates _
  have hn2 : (mergeMaster existing fresh cutoff).Nodup := nodup_dropDuplicates _
  rw [List.perm_ext_iff_of_nodup hn1 hn2]
  intro x
  constructor
  · intro hx
    rcases mem_mergeInput.1 (mem_mergeMaster.1 hx) with ⟨hmem, _⟩ | hfr
    · rw [hmapnorm] at hmem
      exact hmem
    · exact mem_mergeMaster.2 (mem_mergeInput.2 (Or.inr hfr))
  · intro hx
    by_cases hk : keepMask cutoff x = true
    · refine mem_mergeMaster.2 (mem_mergeInput.2 (Or.inl ⟨?_, hk⟩))
      rw [hmapnorm]
      exact hx
    · rcases mem_mergeInput.1 (mem_mergeMaster.1 hx) with ⟨_, hkeep⟩ | hfr
      · exact absurd hkeep hk
      · exact mem_mergeMaster.2 (mem_mergeInput.2 (Or.inr hfr))

/-- C6 witness: the permutation statement at the concrete two-row fresh
batch of the counterexample. -/
theorem C6_witness :
    ([rowMarEarly, rowBad] ≠ ([] : List Row)) ∧
    (mergeMaster ((mergeMaster [] [rowMarEarly, rowBad] cutoffMar2024).map denormalizeRow)
        [rowMarEarly, rowBad] cutoffMar2024).Perm
      (mergeMaster [] [rowMarEarly, rowBad] cutoffMar2024) :=
  ⟨by decide,
    C6_amended_idempotent_up_to_order [] [rowMarEarly, rowBad] cutoffMar2024 (by decide)⟩

/-- C7: fetch-failure atomicity — when the fetch raises a transport
error (caught, `None` returned) or yields an empty result, the run stops
at the early return: nothing is written or uploaded and the persisted
master table is unchanged, for every prior state. -/
theorem C7_fetch_failure_atomic (resp : Except String (List Row))
    (old : Option WrittenTable) (readRes : ReadResult) (cutoff : DateTime)
    (h : (∃ e, resp = .error e) ∨ resp = .ok []) :
    persistedAfter old
        (update_master_csv_for_year (fetch_billing_data resp) readRes cutoff) = old ∧
    update_master_csv_for_year (fetch_billing_data resp) readRes cutoff =
      .aborted "No new data found" := by
  rcases h with ⟨e, rfl⟩ | rfl
  · exact ⟨rfl, rfl⟩
  · exact ⟨rfl, rfl⟩

/-- C7 witness: a concrete transport error leaves a concrete persisted
table untouched. -/
theorem C7_witness :
    ((∃ e, (Except.error "timeout" : Except String (List Row)) = .error e) ∨
      (Except.error "timeout" : Except String (List Row)) = .ok []) ∧
    (persistedAfter (some (.raw [rowJan]))
        (update_master_csv_for_year
          (fetch_billing_data (.error "timeout")) (.ok [rowJan]) cutoffMar2024) =
      some (.raw [rowJan]) ∧
    update_master_csv_for_year
        (fetch_billing_data (.error "timeout")) (.ok [rowJan]) cutoffMar2024 =
      .aborted "No new data found") :=
  ⟨Or.inl ⟨"timeout", rfl⟩,
    C7_fetch_failure_atomic (.error "timeout") (some (.raw [rowJan]))
      (.ok [rowJan]) cutoffMar2024 (Or.inl ⟨"timeout", rfl⟩)⟩

/-- C8: persistence-read-error fallback — when the existing master file
is present but unreadable, a run with a non-empty fresh batch recovers
by treating the existing table as empty: it writes exactly the fresh
batch and reports the fallback with the warning it prints. -/
theorem C8_read_error_fallback (latest : List Row) (hl : latest ≠ [])
    (msg : String) (old : Option WrittenTable) (cutoff : DateTime) :
    update_master_csv_for_year (some latest) (.readError msg) cutoff =
      .written (.raw latest) ["Error reading existing CSV, creating new one"] ∧
    persistedAfter old
        (update_master_csv_for_year (some latest) (.readError msg) cutoff) =
      some (.raw latest) := by
  cases latest with
  | nil => exact absurd rfl hl
  | cons a as => exact ⟨rfl, rfl⟩

/-- C8 witness: the fallback at a concrete unreadable file and one-row
fresh batch. -/
theorem C8_witness :
    ([rowMar] ≠ ([] : List Row)) ∧
    (update_master_csv_for_year (some [rowMar]) (.readError "corrupt") cutoffMar2024 =
        .written (.raw [rowMar]) ["Error reading existing CSV, creating new one"] ∧
      persistedAfter (some (.raw [rowJan]))
          (update_master_csv_for_year (some [rowMar]) (.readError "corrupt") cutoffMar2024) =
        some (.raw [rowMar])) :=
  ⟨by decide,
    C8_read_error_fallback [rowMar] (by decide) "corrupt" (some (.raw [rowJan]))
      cutoffMar2024⟩

/-- C9: `filter_usage_events_by_date` keeps exactly the input events
whose `start` is present and parses with year and month equal to the
targets (the result being an in-order subsequence of the input), and
silently excludes every event whose `start` is missing or unparsable. -/
theorem C9_filter_usage_events_by_date (data : List Row) (y : Int) (m : Nat) :
    (∀ e : Row, e ∈ filter_usage_events_by_date data y m ↔
      e ∈ data ∧ ∃ t : DateTime,
        e.start = some (.valid t) ∧ t.year = y ∧ t.month = m) ∧
    (∀ e ∈ data, (e.start = none ∨ (∃ s, e.start = some (.invalid s))) →
      e ∉ filter_usage_events_by_date data y m) ∧
    List.Sublist (filter_usage_events_by_date data y m) data := by
  have hchar : ∀ e : Row, eventMatchesDate y m e = true ↔
      ∃ t : DateTime, e.start = some (.valid t) ∧ t.year = y ∧ t.month = m := by
    intro e
    cases hstart : e.start with
    | none => simp [eventMatchesDate, hstart]
    | some v =>
      cases v with
      | valid t => simp [eventMatchesDate, hstart]
      | invalid s => simp [eventMatchesDate, hstart]
  refine ⟨fun e => ?_, fun e he hbad => ?_, List.filter_sublist _⟩
  · simp only [filter_usage_events_by_date, List.mem_filter, hchar e]
  · intro hmem
    have := ((List.mem_filter.1 hmem).2)
    rw [hchar e] at this
    obtain ⟨t, ht, _, _⟩ := this
    rcases hbad with hb | ⟨s, hb⟩ <;> rw [hb] at ht <;> simp at ht

/-- C9 witness: the characterization at a concrete three-event list —
the January event is kept iff it matches, and the malformed-start event
is excluded. -/
theorem C9_witness :
    ((rowJan ∈ filter_usage_events_by_date [rowJan, rowBad, rowMar] 2024 1 ↔
      rowJan ∈ [rowJan, rowBad, rowMar] ∧ ∃ t : DateTime,
        rowJan.start = some (.valid t) ∧ t.year = 2024 ∧ t.month = 1) ∧
    (rowBad ∈ [rowJan, rowBad, rowMar] ∧
      rowBad ∉ filter_usage_events_by_date [rowJan, rowBad, rowMar] 2024 1)) :=
  ⟨(C9_filter_usage_events_by_date [rowJan, rowBad, rowMar] 2024 1).1 rowJan,
    ⟨by decide,
      (C9_filter_usage_events_by_date [rowJan, rowBad, rowMar] 2024 1).2.1 rowBad
        (by decide) (Or.inr ⟨"not-a-date", rfl⟩)⟩⟩

/-- C10: `limit_to_recent_events` returns its input unchanged when it is
within the limit; otherwise it returns exactly `maxEvents` events,
sorted by descending id (missing ids counting as 0), and every returned
event's id is at least every dropped event's id. -/
theorem C10_limit_to_recent_events (data : List Row) (maxEvents : Nat) :
    (data.length ≤ maxEvents → limit_to_recent_events data maxEvents = data) ∧
    (maxEvents < data.length →
      (limit_to_recent_events data maxEvents).length = maxEvents ∧
      (limit_to_recent_events data maxEvents).Sorted
        (fun a b => idOrZero b ≤ idOrZero a) ∧
      ∃ dropped : List Row,
        data.Perm (limit_to_recent_events data maxEvents ++ dropped) ∧
        ∀ x ∈ limit_to_recent_events data maxEvents, ∀ y ∈ dropped,
          idOrZero y ≤ idOrZero x) := by
  constructor
  · intro h
    simp [limit_to_recent_events, h]
  · intro h
    have hnot : ¬data.length ≤ maxEvents := not_le.2 h
    have htrans : ∀ a b c : Row, moreRecent a b = true → moreRecent b c = true →
        moreRecent a c = true := by
      intro a b c h1 h2
      simp only [moreRecent, decide_eq_true_eq] at *
      exact le_trans h2 h1
    have htotal : ∀ a b : Row, (moreRecent a b || moreRecent b a) = true := by
      intro a b
      simp only [moreRecent, Bool.or_eq_true, decide_eq_true_eq]
      exact le_total (idOrZero b) (idOrZero a)
    have hsorted := List.sorted_mergeSort htrans htotal data
    have hsortedP : (data.mergeSort moreRecent).Sorted
        (fun a b => idOrZero b ≤ idOrZero a) := by
      refine hsorted.imp ?_
      intro a b hab
      simpa [moreRecent] using hab
    simp only [limit_to_recent_events, if_neg hnot]
    refine ⟨?_, ?_, (data.mergeSort moreRecent).drop maxEvents, ?_, ?_⟩
    · rw [List.length_take, List.length_mergeSort]
      exact Nat.min_eq_left h.le
    · exact List.Pairwise.sublist (List.take_sublist _ _) hsortedP
    · rw [List.take_append_drop]
      exact (List.mergeSort_perm data moreRecent).symm
    · intro x hx y hy
      exact hsortedP.rel_of_mem_take_of_mem_drop hx hy

/-- C10 witness: the over-limit branch at a concrete three-event list
with limit two. -/
theorem C10_witness :
    (2 < ([rowJan, rowMar, rowBad] : List Row).length) ∧
    ((limit_to_recent_events [rowJan, rowMar, rowBad] 2).length = 2 ∧
      (limit_to_recent_events [rowJan, rowMar, rowBad] 2).Sorted
        (fun a b => idOrZero b ≤ idOrZero a) ∧
      ∃ dropped : List Row,
        ([rowJan, rowMar, rowBad] : List Row).Perm
          (limit_to_recent_events [rowJan, rowMar, rowBad] 2 ++ dropped) ∧
        ∀ x ∈ limit_to_recent_events [rowJan, rowMar, rowBad] 2, ∀ y ∈ dropped,
          idOrZero y ≤ idOrZero x) :=
  ⟨by decide, (C10_limit_to_recent_events [rowJan, rowMar, rowBad] 2).2 (by decide)⟩
